import Mathlib

/-!
Verification development for the libocispec-generated JSON binding code in
src/crun-1.23.1/libocispec/src/ocispec/runtime_spec_schema_features_linux.c
and src/crun-1.23.1/libocispec/src/ocispec/runtime_spec_schema_defs_zos.c.

The yajl tree values are modelled by a mutual inductive family: a JSON value
(JVal), a JSON array payload (JArr), and a JSON object payload (JObj).  An
object slot is either a full (key, value) pair or a blank slot: the decoder
in the C source detaches unknown keys by writing NULL into both the key and
the value cell of the source object, and a blank slot models such a
detached cell.  JSON true and false are distinct type tags in yajl
(yajl_t_true / yajl_t_false), so they are distinct constructors here.
Numbers keep their source text.  Memory allocation is assumed to succeed
throughout: the calloc and strdup failure paths of the C source are not
modelled.
-/

mutual

inductive JVal : Type where
  | vtrue : JVal
  | vfalse : JVal
  | vnull : JVal
  | vnum (s : String) : JVal
  | vstr (s : String) : JVal
  | varr (xs : JArr) : JVal
  | vobj (es : JObj) : JVal

inductive JArr : Type where
  | anil : JArr
  | acons (hd : JVal) (tl : JArr) : JArr

inductive JObj : Type where
  | onil : JObj
  | ocons (k : String) (v : JVal) (tl : JObj) : JObj
  | oblank (tl : JObj) : JObj

end

/-- The yajl type tags (yajl_t_string .. yajl_t_any). -/
inductive JType : Type where
  | t_string | t_number | t_object | t_array | t_true | t_false | t_null | t_any
deriving DecidableEq, Repr

/-- The type tag of a value, as stored in the type field of a yajl_val. -/
def JVal.typeOf : JVal → JType
  | .vtrue => .t_true
  | .vfalse => .t_false
  | .vnull => .t_null
  | .vnum _ => .t_number
  | .vstr _ => .t_string
  | .varr _ => .t_array
  | .vobj _ => .t_object

/-- Appending two object slot lists (used by the document builder). -/
def JObj.append : JObj → JObj → JObj
  | .onil, ys => ys
  | .ocons k v tl, ys => .ocons k v (tl.append ys)
  | .oblank tl, ys => .oblank (tl.append ys)

/-- Appending two array payloads. -/
def JArr.append : JArr → JArr → JArr
  | .anil, ys => ys
  | .acons x tl, ys => .acons x (tl.append ys)

/-- First value stored under a key in an object, scanning slots in order.
Blank (detached) slots never match; in the C source a blank key would be
passed to strcmp, which is undefined, but the decoder only runs on freshly
parsed trees whose slots are all full. -/
def JObj.olookup : JObj → String → Option JVal
  | .onil, _ => none
  | .ocons k v tl, name => if k = name then some v else tl.olookup name
  | .oblank tl, name => tl.olookup name

/-- Model of get_val from libocispec json_common.c.  Modelled from the spec:
the helper is not under src/; the spec says the decoder looks up the wire
name in the tree object by exact key match and keeps the value only when it
has the requested JSON kind (yajl_tree_get returns NULL when the type tag
differs and the requested type is not yajl_t_any). -/
def get_val (tree : JVal) (name : String) (t : JType) : Option JVal :=
  match tree with
  | .vobj es =>
    match es.olookup name with
    | some v => if t = JType.t_any ∨ v.typeOf = t then some v else none
    | none => none
  | _ => none

/-- YAJL_IS_TRUE: the value has type tag yajl_t_true. -/
def JVal.isTrue (v : JVal) : Bool := v.typeOf = JType.t_true

/-- YAJL_GET_STRING: the string payload, or NULL for a non-string; the
callers below always pass a value already filtered to be a string, and the
C idiom strdup (str ? str : "") turns a NULL payload into "". -/
def JVal.getString : JVal → String
  | .vstr s => s
  | _ => ""

/-- Model of struct parser_context: the option bitmask is split into one
Boolean per flag used by this code, and errfile is modelled by whether a
diagnostic sink was supplied. -/
structure parser_context where
  opt_parse_fullkey : Bool
  opt_parse_strict : Bool
  opt_gen_key_value : Bool
  opt_gen_simplify : Bool
  errfile : Bool
deriving DecidableEq, Repr

/-- Result of one make_* call: the returned record (NULL modelled as none),
the parser_error out-parameter, the input tree as left behind by the call
(the decoder mutates it when it detaches unknown keys), and whether the
strict-mode warning line was written to errfile. -/
structure MakeResult (α : Type) where
  ret : Option α
  err : Option String
  tree : Option JVal
  warned : Bool

/-- struct runtime_spec_schema_features_linux_cgroup: five tri-state
booleans (value bit plus presence bit) and the captured residual tree. -/
structure runtime_spec_schema_features_linux_cgroup where
  v1 : Bool
  v1_present : Bool
  v2 : Bool
  v2_present : Bool
  systemd : Bool
  systemd_present : Bool
  systemd_user : Bool
  systemd_user_present : Bool
  rdma : Bool
  rdma_present : Bool
  _residual : Option JVal

/-- struct runtime_spec_schema_defs_zos_namespace_reference: two optional
strings (char pointers, NULL modelled as none) and the residual tree. -/
structure runtime_spec_schema_defs_zos_namespace_reference where
  type : Option String
  path : Option String
  _residual : Option JVal

/-- struct runtime_spec_schema_features_linux_seccomp: a tri-state boolean
and five string arrays.  A char** field together with its _len counter is
modelled as an optional list (none = NULL pointer); the length field always
equals the list length in every state the source code constructs, and array
cells may hold NULL (none) since make only fills cells whose source array
element is non-NULL. -/
structure runtime_spec_schema_features_linux_seccomp where
  enabled : Bool
  enabled_present : Bool
  actions : Option (List (Option String))
  operators : Option (List (Option String))
  archs : Option (List (Option String))
  known_flags : Option (List (Option String))
  supported_flags : Option (List (Option String))
  _residual : Option JVal

/-- One generated tri-state boolean decode block: get_val with yajl_t_true
first (a hit has type tag true, so YAJL_IS_TRUE gives true), then with
yajl_t_false (a hit stores 0); no hit leaves value 0, presence 0. -/
def boolFieldDecode (t : JVal) (name : String) : Bool × Bool :=
  match get_val t name JType.t_true with
  | some _ => (true, true)
  | none =>
    match get_val t name JType.t_false with
    | some _ => (false, true)
    | none => (false, false)

/-- One generated scalar string decode block: get_val with yajl_t_string;
a hit is strdup-copied, no hit leaves the field NULL. -/
def stringFieldDecode (t : JVal) (name : String) : Option String :=
  match get_val t name JType.t_string with
  | some val => some val.getString
  | none => none

/-- The residual scan shared by every generated make_* function: walk the
slots of the source object; a slot whose key differs from every known wire
name (the strcmp chain) is counted in j and, when OPT_PARSE_FULLKEY is set,
its key and value are moved into the residual object and the source slot is
nulled.  Returns the source object as left behind, the residual object, and
the unknown-key count j.  A blank slot would make the C strcmp crash; it is
skipped here and the decoder only receives freshly parsed trees with full
slots. -/
def scanResidual (names : List String) (fullkey : Bool) : JObj → JObj × JObj × Nat
  | .onil => (.onil, .onil, 0)
  | .ocons k v tl =>
    let r := scanResidual names fullkey tl
    if k ∈ names then (.ocons k v r.1, r.2.1, r.2.2)
    else if fullkey then (.oblank r.1, .ocons k v r.2.1, r.2.2 + 1)
    else (.ocons k v r.1, r.2.1, r.2.2 + 1)
  | .oblank tl =>
    let r := scanResidual names fullkey tl
    (.oblank r.1, r.2.1, r.2.2)

/-- The wire names recognized by the cgroup schema, in descriptor order. -/
def cgroupKnownKeys : List String := ["v1", "v2", "systemd", "systemdUser", "rdma"]

/-- The wire names recognized by the zos namespace-reference schema. -/
def zosKnownKeys : List String := ["type", "path"]

/-- make_runtime_spec_schema_features_linux_cgroup: NULL tree returns NULL
with no error; otherwise the five tri-state booleans are decoded with
get_val, and if the tree is an object the residual scan runs, the strict
warning fires when OPT_PARSE_STRICT is set, at least one unknown key was
seen and errfile is non-NULL, and the residual object is stored when
OPT_PARSE_FULLKEY is set. -/
def make_runtime_spec_schema_features_linux_cgroup (tree : Option JVal)
    (ctx : parser_context) :
    MakeResult runtime_spec_schema_features_linux_cgroup :=
  match tree with
  | none => ⟨none, none, none, false⟩
  | some t =>
    let f1 := boolFieldDecode t "v1"
    let f2 := boolFieldDecode t "v2"
    let f3 := boolFieldDecode t "systemd"
    let f4 := boolFieldDecode t "systemdUser"
    let f5 := boolFieldDecode t "rdma"
    match t with
    | .vobj es =>
      let r := scanResidual cgroupKnownKeys ctx.opt_parse_fullkey es
      let warned := ctx.opt_parse_strict && decide (0 < r.2.2) && ctx.errfile
      let resi : Option JVal := if ctx.opt_parse_fullkey then some (.vobj r.2.1) else none
      ⟨some ⟨f1.1, f1.2, f2.1, f2.2, f3.1, f3.2, f4.1, f4.2, f5.1, f5.2, resi⟩,
        none, some (.vobj r.1), warned⟩
    | t' =>
      ⟨some ⟨f1.1, f1.2, f2.1, f2.2, f3.1, f3.2, f4.1, f4.2, f5.1, f5.2, none⟩,
        none, some t', false⟩

/-- The error text produced by the generated asprintf call for the required
field named type. -/
def zosRequiredTypeMsg : String := "Required field " ++ "\x27type\x27" ++ " not present"

/-- make_runtime_spec_schema_defs_zos_namespace_reference: NULL tree returns
NULL with no error; otherwise the two scalar strings are decoded, then the
required-field check fires (before the residual scan) when the type field
came out NULL, and otherwise the shared residual scan runs as for cgroup. -/
def make_runtime_spec_schema_defs_zos_namespace_reference (tree : Option JVal)
    (ctx : parser_context) :
    MakeResult runtime_spec_schema_defs_zos_namespace_reference :=
  match tree with
  | none => ⟨none, none, none, false⟩
  | some t =>
    let ftype := stringFieldDecode t "type"
    let fpath := stringFieldDecode t "path"
    match ftype with
    | none => ⟨none, some zosRequiredTypeMsg, some t, false⟩
    | some _ =>
      match t with
      | .vobj es =>
        let r := scanResidual zosKnownKeys ctx.opt_parse_fullkey es
        let warned := ctx.opt_parse_strict && decide (0 < r.2.2) && ctx.errfile
        let resi : Option JVal := if ctx.opt_parse_fullkey then some (.vobj r.2.1) else none
        ⟨some ⟨ftype, fpath, resi⟩, none, some (.vobj r.1), warned⟩
      | t' => ⟨some ⟨ftype, fpath, none⟩, none, some t', false⟩

/-- clone_runtime_spec_schema_features_linux_cgroup: a fresh calloc-ed
record receiving every value and presence bit of the source; the _residual
pointer of the clone is never written and stays NULL. -/
def clone_runtime_spec_schema_features_linux_cgroup
    (src : runtime_spec_schema_features_linux_cgroup) :
    runtime_spec_schema_features_linux_cgroup :=
  ⟨src.v1, src.v1_present, src.v2, src.v2_present, src.systemd, src.systemd_present,
    src.systemd_user, src.systemd_user_present, src.rdma, src.rdma_present, none⟩

/-- clone_runtime_spec_schema_defs_zos_namespace_reference: strdup of each
non-NULL string; _residual is never written and stays NULL. -/
def clone_runtime_spec_schema_defs_zos_namespace_reference
    (src : runtime_spec_schema_defs_zos_namespace_reference) :
    runtime_spec_schema_defs_zos_namespace_reference :=
  ⟨src.type, src.path, none⟩

/-- One cloned string array: when the source pointer is non-NULL a fresh
array of the same length is calloc-ed and every non-NULL cell is
strdup-copied (NULL cells stay NULL in the calloc-ed copy). -/
def cloneStringArray (src : Option (List (Option String))) : Option (List (Option String)) :=
  match src with
  | none => none
  | some xs => some xs

/-- clone_runtime_spec_schema_features_linux_seccomp: the scalar pair is
copied, each of the five string arrays is deep-copied cell by cell, and the
_residual pointer of the clone is never written and stays NULL. -/
def clone_runtime_spec_schema_features_linux_seccomp
    (src : runtime_spec_schema_features_linux_seccomp) :
    runtime_spec_schema_features_linux_seccomp :=
  ⟨src.enabled, src.enabled_present, cloneStringArray src.actions,
    cloneStringArray src.operators, cloneStringArray src.archs,
    cloneStringArray src.known_flags, cloneStringArray src.supported_flags, none⟩

/-- One deallocation performed by a free_* function, in call order: a
strdup-ed string cell, an array pointer, a residual tree handed to
yajl_tree_free, or the record itself. -/
inductive FreedCell : Type where
  | cellStr (s : String) : FreedCell
  | cellArray : FreedCell
  | cellTree (t : JVal) : FreedCell
  | cellRecord : FreedCell

/-- yajl_tree_free: a no-op on NULL, otherwise the whole tree is freed. -/
def treeFreeCells : Option JVal → List FreedCell
  | none => []
  | some t => [.cellTree t]

/-- The free loop of one string array field: a no-op when the pointer is
NULL, otherwise each non-NULL cell is freed (and nulled) and then the array
pointer itself. -/
def arrayFreeCells : Option (List (Option String)) → List FreedCell
  | none => []
  | some xs => (xs.filterMap (fun c => c.map FreedCell.cellStr)) ++ [.cellArray]

/-- free_runtime_spec_schema_features_linux_cgroup: NULL pointer returns at
once freeing nothing; otherwise the residual tree is freed (yajl_tree_free
is a no-op on NULL) and then the record. -/
def free_runtime_spec_schema_features_linux_cgroup :
    Option runtime_spec_schema_features_linux_cgroup → List FreedCell
  | none => []
  | some r => treeFreeCells r._residual ++ [.cellRecord]

/-- free_runtime_spec_schema_features_linux_seccomp: NULL pointer returns at
once; otherwise each of the five string arrays is freed element by element
then as an array, the residual tree is freed, and finally the record. -/
def free_runtime_spec_schema_features_linux_seccomp :
    Option runtime_spec_schema_features_linux_seccomp → List FreedCell
  | none => []
  | some r =>
    arrayFreeCells r.actions ++ arrayFreeCells r.operators ++ arrayFreeCells r.archs ++
      arrayFreeCells r.known_flags ++ arrayFreeCells r.supported_flags ++
      treeFreeCells r._residual ++ [.cellRecord]

/-!  The abstract emitter.  Modelled from the spec: the yajl generator is an
external collaborator; the spec describes it as a streaming emitter
supporting open-object / close-object / open-array / close-array /
write-key / write-scalar calls, with write-key and string write-scalar both
carried by yajl_gen_string.  A gen_* function is modelled as the list of
emitter events it issues; the emitter itself never fails in this model (an
EmitterFailure can only arrive from the external I/O layer, which is out of
scope), so the yajl_gen_status checks of the source always see success.
The yajl_gen_config beautify toggles issued around empty arrays are pure
output formatting and produce no event. -/

inductive EmitEvent : Type where
  | mapOpen : EmitEvent
  | mapClose : EmitEvent
  | arrayOpen : EmitEvent
  | arrayClose : EmitEvent
  | estr (s : String) : EmitEvent
  | ebool (b : Bool) : EmitEvent
  | enull : EmitEvent
  | enum (s : String) : EmitEvent

mutual

/-- Modelled from the spec: gen_yajl_val from json_common.c serializes one
tree value through the emitter, arrays and objects recursively. -/
def genVal : JVal → List EmitEvent
  | .vtrue => [.ebool true]
  | .vfalse => [.ebool false]
  | .vnull => [.enull]
  | .vnum s => [.enum s]
  | .vstr s => [.estr s]
  | .varr xs => .arrayOpen :: genArrElems xs ++ [.arrayClose]
  | .vobj es => .mapOpen :: genObjEntries es ++ [.mapClose]

/-- Events of the elements of an array, in order. -/
def genArrElems : JArr → List EmitEvent
  | .anil => []
  | .acons v tl => genVal v ++ genArrElems tl

/-- Events of the slots of an object: each full slot emits its key then its
value; a blank slot is skipped (the residual objects fed to the generator
never contain one). -/
def genObjEntries : JObj → List EmitEvent
  | .onil => []
  | .ocons k v tl => (.estr k :: genVal v) ++ genObjEntries tl
  | .oblank tl => genObjEntries tl

end

/-- Modelled from the spec: gen_yajl_object_residual emits the key/value
pairs of the stored residual object verbatim, in stored order, inline into
the object the caller currently has open (no map open/close of its own). -/
def gen_yajl_object_residual (t : JVal) : List EmitEvent :=
  match t with
  | .vobj es => genObjEntries es
  | _ => []

/-- The events of the trailing residual block shared by every gen_*
function: nothing when the record is NULL or its _residual is NULL. -/
def residualEvents {α : Type} (ptr : Option α) (resOf : α → Option JVal) : List EmitEvent :=
  match ptr with
  | none => []
  | some r =>
    match resOf r with
    | none => []
    | some t => gen_yajl_object_residual t

/-- One generated tri-state boolean emit block: the field is written when
OPT_GEN_KEY_VALUE is set or the record is non-NULL with the presence bit
set; the written value b starts at false and becomes the stored bit when
the record is non-NULL and the bit is set, hence b equals the stored bit
whenever the record is non-NULL. -/
def boolFieldEvents (emit : Bool) (key : String) (b : Bool) : List EmitEvent :=
  if emit then [.estr key, .ebool b] else []

/-- One generated scalar string emit block: written when OPT_GEN_KEY_VALUE
is set or the pointer is non-NULL; the written text defaults to "". -/
def strFieldEvents (emit : Bool) (key : String) (s : String) : List EmitEvent :=
  if emit then [.estr key, .estr s] else []

/-- One generated string array emit block: written when OPT_GEN_KEY_VALUE is
set or the array pointer is non-NULL; the element count is 0 for a NULL
array, and each written element passes through strlen/yajl_gen_string (a
NULL cell would crash strlen; it is rendered as "" here and the records the
source builds from parsed trees have no NULL cells). -/
def arrFieldEvents (emit : Bool) (key : String) (elems : List (Option String)) :
    List EmitEvent :=
  if emit then
    [.estr key, .arrayOpen] ++ elems.map (fun c => EmitEvent.estr (c.getD "")) ++ [.arrayClose]
  else []

/-- Test of an optional record against a field, as in (ptr != NULL && ptr->f). -/
def optTest {α : Type} (p : Option α) (f : α → Bool) : Bool :=
  match p with
  | some x => f x
  | none => false

/-- gen_runtime_spec_schema_features_linux_cgroup: map open, the five
boolean fields in descriptor order under the OPT_GEN_KEY_VALUE-or-present
rule, the residual block, map close. -/
def gen_runtime_spec_schema_features_linux_cgroup
    (ptr : Option runtime_spec_schema_features_linux_cgroup)
    (ctx : parser_context) : List EmitEvent :=
  [.mapOpen]
    ++ boolFieldEvents (ctx.opt_gen_key_value || optTest ptr (·.v1_present)) "v1"
        (optTest ptr (·.v1))
    ++ boolFieldEvents (ctx.opt_gen_key_value || optTest ptr (·.v2_present)) "v2"
        (optTest ptr (·.v2))
    ++ boolFieldEvents (ctx.opt_gen_key_value || optTest ptr (·.systemd_present)) "systemd"
        (optTest ptr (·.systemd))
    ++ boolFieldEvents (ctx.opt_gen_key_value || optTest ptr (·.systemd_user_present))
        "systemdUser" (optTest ptr (·.systemd_user))
    ++ boolFieldEvents (ctx.opt_gen_key_value || optTest ptr (·.rdma_present)) "rdma"
        (optTest ptr (·.rdma))
    ++ residualEvents ptr (·._residual)
    ++ [.mapClose]

/-- gen_runtime_spec_schema_defs_zos_namespace_reference: map open, the two
string fields (value defaulting to "" when the pointer is NULL), the
residual block, map close. -/
def gen_runtime_spec_schema_defs_zos_namespace_reference
    (ptr : Option runtime_spec_schema_defs_zos_namespace_reference)
    (ctx : parser_context) : List EmitEvent :=
  [.mapOpen]
    ++ strFieldEvents (ctx.opt_gen_key_value || optTest ptr (·.type.isSome)) "type"
        ((ptr.bind (·.type)).getD "")
    ++ strFieldEvents (ctx.opt_gen_key_value || optTest ptr (·.path.isSome)) "path"
        ((ptr.bind (·.path)).getD "")
    ++ residualEvents ptr (·._residual)
    ++ [.mapClose]

/-- gen_runtime_spec_schema_features_linux_seccomp: map open, the enabled
boolean, the five string arrays in descriptor order (length 0 when the
pointer is NULL), the residual block, map close. -/
def gen_runtime_spec_schema_features_linux_seccomp
    (ptr : Option runtime_spec_schema_features_linux_seccomp)
    (ctx : parser_context) : List EmitEvent :=
  [.mapOpen]
    ++ boolFieldEvents (ctx.opt_gen_key_value || optTest ptr (·.enabled_present)) "enabled"
        (optTest ptr (·.enabled))
    ++ arrFieldEvents (ctx.opt_gen_key_value || optTest ptr (·.actions.isSome)) "actions"
        ((ptr.bind (·.actions)).getD [])
    ++ arrFieldEvents (ctx.opt_gen_key_value || optTest ptr (·.operators.isSome)) "operators"
        ((ptr.bind (·.operators)).getD [])
    ++ arrFieldEvents (ctx.opt_gen_key_value || optTest ptr (·.archs.isSome)) "archs"
        ((ptr.bind (·.archs)).getD [])
    ++ arrFieldEvents (ctx.opt_gen_key_value || optTest ptr (·.known_flags.isSome)) "knownFlags"
        ((ptr.bind (·.known_flags)).getD [])
    ++ arrFieldEvents (ctx.opt_gen_key_value || optTest ptr (·.supported_flags.isSome))
        "supportedFlags" ((ptr.bind (·.supported_flags)).getD [])
    ++ residualEvents ptr (·._residual)
    ++ [.mapClose]

/-!  The document assembler.  Modelled from the spec: the external emitter
turns the event stream into a JSON document; to state document-level
properties the stream is assembled back into a tree value by a stack of
open containers, rejecting any stream no real emitter would accept (a
non-string key, a close without a matching open, events after the top-level
value is complete). -/

/-- One open container on the assembler stack: an array collecting its
elements so far, or an object collecting its slots so far together with a
written-but-unmatched key. -/
inductive Frame : Type where
  | farr (acc : JArr) : Frame
  | fobj (acc : JObj) (pending : Option String) : Frame

/-- Assembler state: the stack of open containers and the completed
top-level document once it exists. -/
structure BuildState where
  stack : List Frame
  top : Option JVal

/-- Deliver one completed value to the innermost open container, or as the
top-level document when none is open; a value where an object expects a key
is rejected. -/
def putValue (v : JVal) : List Frame → Option BuildState
  | [] => some ⟨[], some v⟩
  | .farr acc :: rest => some ⟨.farr (acc.append (.acons v .anil)) :: rest, none⟩
  | .fobj acc (some k) :: rest =>
    some ⟨.fobj (acc.append (.ocons k v .onil)) none :: rest, none⟩
  | .fobj _ none :: _ => none

/-- Process one emitter event. -/
def stepEvent (st : BuildState) (ev : EmitEvent) : Option BuildState :=
  match st.top with
  | some _ => none
  | none =>
    match ev with
    | .estr s =>
      match st.stack with
      | .fobj acc none :: rest => some ⟨.fobj acc (some s) :: rest, none⟩
      | stk => putValue (.vstr s) stk
    | .ebool b => putValue (if b then .vtrue else .vfalse) st.stack
    | .enull => putValue .vnull st.stack
    | .enum s => putValue (.vnum s) st.stack
    | .mapOpen =>
      match st.stack with
      | .fobj _ none :: _ => none
      | stk => some ⟨.fobj .onil none :: stk, none⟩
    | .mapClose =>
      match st.stack with
      | .fobj acc none :: rest => putValue (.vobj acc) rest
      | _ => none
    | .arrayOpen =>
      match st.stack with
      | .fobj _ none :: _ => none
      | stk => some ⟨.farr .anil :: stk, none⟩
    | .arrayClose =>
      match st.stack with
      | .farr acc :: rest => putValue (.varr acc) rest
      | _ => none

/-- Run a list of events from a state. -/
def runEvents : List EmitEvent → BuildState → Option BuildState
  | [], st => some st
  | ev :: evs, st =>
    match stepEvent st ev with
    | none => none
    | some st2 => runEvents evs st2

/-- The document denoted by a complete event stream. -/
def buildDoc (evs : List EmitEvent) : Option JVal :=
  match runEvents evs ⟨[], none⟩ with
  | some ⟨[], some v⟩ => some v
  | _ => none

theorem runEvents_append (a b : List EmitEvent) (st : BuildState) :
    runEvents (a ++ b) st =
      match runEvents a st with
      | none => none
      | some st2 => runEvents b st2 := by
  induction a generalizing st with
  | nil => simp [runEvents]
  | cons ev evs ih =>
    simp only [List.cons_append, runEvents]
    cases stepEvent st ev with
    | none => rfl
    | some st2 => exact ih st2

/-- A stack whose innermost container can accept a value (not an object
waiting for a key). -/
def valueStack : List Frame → Bool
  | .fobj _ none :: _ => false
  | _ => true

/-- An object with its blank (detached) slots removed. -/
def JObj.dropBlanks : JObj → JObj
  | .onil => .onil
  | .ocons k v tl => .ocons k v tl.dropBlanks
  | .oblank tl => tl.dropBlanks

theorem JObj.append_onil : ∀ xs : JObj, xs.append .onil = xs
  | .onil => rfl
  | .ocons k v tl => by simp [JObj.append, JObj.append_onil tl]
  | .oblank tl => by simp [JObj.append, JObj.append_onil tl]

theorem JObj.append_assoc_obj : ∀ xs : JObj, ∀ ys zs : JObj,
    (xs.append ys).append zs = xs.append (ys.append zs)
  | .onil, _, _ => rfl
  | .ocons k v tl, ys, zs => by simp [JObj.append, JObj.append_assoc_obj tl ys zs]
  | .oblank tl, ys, zs => by simp [JObj.append, JObj.append_assoc_obj tl ys zs]

theorem JArr.append_anil : ∀ xs : JArr, xs.append .anil = xs
  | .anil => rfl
  | .acons x tl => by simp [JArr.append, JArr.append_anil tl]

theorem JArr.append_assoc_arr : ∀ xs : JArr, ∀ ys zs : JArr,
    (xs.append ys).append zs = xs.append (ys.append zs)
  | .anil, _, _ => rfl
  | .acons x tl, ys, zs => by simp [JArr.append, JArr.append_assoc_arr tl ys zs]

mutual

/-- A value with every blank (detached) object slot removed, at any depth.
Serializing a value emits nothing for blank slots, so assembling the
emitted events yields the normalized value. -/
def normVal : JVal → JVal
  | .vtrue => .vtrue
  | .vfalse => .vfalse
  | .vnull => .vnull
  | .vnum s => .vnum s
  | .vstr s => .vstr s
  | .varr xs => .varr (normArr xs)
  | .vobj es => .vobj (normObj es)

def normArr : JArr → JArr
  | .anil => .anil
  | .acons v tl => .acons (normVal v) (normArr tl)

def normObj : JObj → JObj
  | .onil => .onil
  | .ocons k v tl => .ocons k (normVal v) (normObj tl)
  | .oblank tl => normObj tl

end

mutual

/-- A value free of blank object slots at any depth (true of every freshly
parsed tree). -/
def noBlanksV : JVal → Bool
  | .varr xs => noBlanksA xs
  | .vobj es => noBlanksO es
  | _ => true

def noBlanksA : JArr → Bool
  | .anil => true
  | .acons v tl => noBlanksV v && noBlanksA tl

def noBlanksO : JObj → Bool
  | .onil => true
  | .ocons _ v tl => noBlanksV v && noBlanksO tl
  | .oblank _ => false

end

mutual

theorem normVal_of_noBlanks (v : JVal) (h : noBlanksV v = true) : normVal v = v := by
  cases v with
  | vtrue => rfl
  | vfalse => rfl
  | vnull => rfl
  | vnum s => rfl
  | vstr s => rfl
  | varr xs => rw [normVal, normArr_of_noBlanks xs (by simpa [noBlanksV] using h)]
  | vobj es => rw [normVal, normObj_of_noBlanks es (by simpa [noBlanksV] using h)]

theorem normArr_of_noBlanks (xs : JArr) (h : noBlanksA xs = true) : normArr xs = xs := by
  cases xs with
  | anil => rfl
  | acons v tl =>
    have h2 := h
    simp only [noBlanksA, Bool.and_eq_true] at h2
    rw [normArr, normVal_of_noBlanks v h2.1, normArr_of_noBlanks tl h2.2]

theorem normObj_of_noBlanks (es : JObj) (h : noBlanksO es = true) : normObj es = es := by
  cases es with
  | onil => rfl
  | ocons k v tl =>
    have h2 := h
    simp only [noBlanksO, Bool.and_eq_true] at h2
    rw [normObj, normVal_of_noBlanks v h2.1, normObj_of_noBlanks tl h2.2]
  | oblank tl => simp [noBlanksO] at h

end

theorem run_arrayClose (acc : JArr) (stk : List Frame) :
    runEvents [EmitEvent.arrayClose] ⟨.farr acc :: stk, none⟩ = putValue (.varr acc) stk := by
  cases hput : putValue (JVal.varr acc) stk <;> simp [runEvents, stepEvent, hput]

theorem run_mapClose (acc : JObj) (stk : List Frame) :
    runEvents [EmitEvent.mapClose] ⟨.fobj acc none :: stk, none⟩ = putValue (.vobj acc) stk := by
  cases hput : putValue (JVal.vobj acc) stk <;> simp [runEvents, stepEvent, hput]

mutual

/-- Serializing a value and assembling the events delivers the normalized
value (identical to the source value for blank-free trees). -/
theorem run_genVal (v : JVal) (stk : List Frame) (h : valueStack stk = true) :
    runEvents (genVal v) ⟨stk, none⟩ = putValue (normVal v) stk := by
  cases v with
  | vtrue => cases stk with
    | nil => rfl
    | cons fr rest => cases fr with
      | farr acc => rfl
      | fobj acc pending => cases pending with
        | some k => rfl
        | none => simp [valueStack] at h
  | vfalse => cases stk with
    | nil => rfl
    | cons fr rest => cases fr with
      | farr acc => rfl
      | fobj acc pending => cases pending with
        | some k => rfl
        | none => simp [valueStack] at h
  | vnull => cases stk with
    | nil => rfl
    | cons fr rest => cases fr with
      | farr acc => rfl
      | fobj acc pending => cases pending with
        | some k => rfl
        | none => simp [valueStack] at h
  | vnum s => cases stk with
    | nil => rfl
    | cons fr rest => cases fr with
      | farr acc => rfl
      | fobj acc pending => cases pending with
        | some k => rfl
        | none => simp [valueStack] at h
  | vstr s => cases stk with
    | nil => rfl
    | cons fr rest => cases fr with
      | farr acc => rfl
      | fobj acc pending => cases pending with
        | some k => rfl
        | none => simp [valueStack] at h
  | varr xs =>
    have hopen : runEvents (genVal (.varr xs)) ⟨stk, none⟩ =
        runEvents (genArrElems xs ++ [.arrayClose]) ⟨.farr .anil :: stk, none⟩ := by
      cases stk with
      | nil => rfl
      | cons fr rest => cases fr with
        | farr acc => rfl
        | fobj acc pending => cases pending with
          | some k => rfl
          | none => simp [valueStack] at h
    rw [hopen, runEvents_append, run_genArrElems xs JArr.anil stk]
    show runEvents [EmitEvent.arrayClose] ⟨.farr (JArr.anil.append (normArr xs)) :: stk, none⟩
      = putValue (normVal (JVal.varr xs)) stk
    rw [show JArr.anil.append (normArr xs) = normArr xs from rfl, run_arrayClose]
    rfl
  | vobj es =>
    have hopen : runEvents (genVal (.vobj es)) ⟨stk, none⟩ =
        runEvents (genObjEntries es ++ [.mapClose]) ⟨.fobj .onil none :: stk, none⟩ := by
      cases stk with
      | nil => rfl
      | cons fr rest => cases fr with
        | farr acc => rfl
        | fobj acc pending => cases pending with
          | some k => rfl
          | none => simp [valueStack] at h
    rw [hopen, runEvents_append, run_genObjEntries es JObj.onil stk]
    show runEvents [EmitEvent.mapClose] ⟨.fobj (JObj.onil.append (normObj es)) none :: stk, none⟩
      = putValue (normVal (JVal.vobj es)) stk
    rw [show JObj.onil.append (normObj es) = normObj es from rfl, run_mapClose]
    rfl

/-- Assembling serialized array elements appends their normalized forms to
the open array. -/
theorem run_genArrElems (xs : JArr) (acc : JArr) (rest : List Frame) :
    runEvents (genArrElems xs) ⟨.farr acc :: rest, none⟩ =
      some ⟨.farr (acc.append (normArr xs)) :: rest, none⟩ := by
  cases xs with
  | anil => simp [genArrElems, runEvents, normArr, JArr.append_anil]
  | acons v tl =>
    rw [genArrElems, runEvents_append,
      run_genVal v (.farr acc :: rest) (by simp [valueStack])]
    simp only [putValue]
    rw [run_genArrElems tl (acc.append (.acons (normVal v) .anil)) rest, JArr.append_assoc_arr]
    simp [normArr, JArr.append]

/-- Assembling serialized object slots appends the normalized slots to the
open object; blank slots emit nothing. -/
theorem run_genObjEntries (es : JObj) (acc : JObj) (rest : List Frame) :
    runEvents (genObjEntries es) ⟨.fobj acc none :: rest, none⟩ =
      some ⟨.fobj (acc.append (normObj es)) none :: rest, none⟩ := by
  cases es with
  | onil => simp [genObjEntries, runEvents, normObj, JObj.append_onil]
  | ocons k v tl =>
    have hkey : runEvents (genObjEntries (.ocons k v tl)) ⟨.fobj acc none :: rest, none⟩ =
        runEvents (genVal v ++ genObjEntries tl) ⟨.fobj acc (some k) :: rest, none⟩ := by
      rfl
    rw [hkey, runEvents_append,
      run_genVal v (.fobj acc (some k) :: rest) (by simp [valueStack])]
    simp only [putValue]
    rw [run_genObjEntries tl (acc.append (.ocons k (normVal v) .onil)) rest, JObj.append_assoc_obj]
    simp [normObj, JObj.append]
  | oblank tl =>
    rw [genObjEntries, run_genObjEntries tl acc rest]
    simp [normObj]

end

/-- An event list that, replayed into any open object, appends a fixed
block of slots to it.  Every field block of a gen_* function has this
shape, so whole gen_* bodies compose from it. -/
def Appends (L : List EmitEvent) (D : JObj) : Prop :=
  ∀ acc rest, runEvents L ⟨.fobj acc none :: rest, none⟩ =
    some ⟨.fobj (acc.append D) none :: rest, none⟩

theorem appends_append {L1 L2 : List EmitEvent} {D1 D2 : JObj}
    (h1 : Appends L1 D1) (h2 : Appends L2 D2) :
    Appends (L1 ++ L2) (D1.append D2) := by
  intro acc rest
  rw [runEvents_append, h1 acc rest]
  show runEvents L2 ⟨.fobj (acc.append D1) none :: rest, none⟩ = _
  rw [h2, JObj.append_assoc_obj]

/-- The object slot produced by one boolean field block. -/
def boolFieldDoc (emit : Bool) (key : String) (b : Bool) : JObj :=
  if emit then .ocons key (if b then .vtrue else .vfalse) .onil else .onil

/-- The object slot produced by one scalar string field block. -/
def strFieldDoc (emit : Bool) (key : String) (s : String) : JObj :=
  if emit then .ocons key (.vstr s) .onil else .onil

/-- The array payload produced by a string array field block. -/
def strArrOf : List (Option String) → JArr
  | [] => .anil
  | c :: tl => .acons (.vstr (c.getD "")) (strArrOf tl)

/-- The object slot produced by one string array field block. -/
def arrFieldDoc (emit : Bool) (key : String) (elems : List (Option String)) : JObj :=
  if emit then .ocons key (.varr (strArrOf elems)) .onil else .onil

/-- The slots produced by the trailing residual block. -/
def residualDoc {α : Type} (ptr : Option α) (resOf : α → Option JVal) : JObj :=
  match ptr with
  | none => .onil
  | some r =>
    match resOf r with
    | some (.vobj es) => normObj es
    | _ => .onil

theorem appends_boolField (emit : Bool) (key : String) (b : Bool) :
    Appends (boolFieldEvents emit key b) (boolFieldDoc emit key b) := by
  intro acc rest
  cases emit with
  | false => simp [boolFieldEvents, boolFieldDoc, runEvents, JObj.append_onil]
  | true =>
    cases b <;>
      simp [boolFieldEvents, boolFieldDoc, runEvents, stepEvent, putValue]

theorem appends_strField (emit : Bool) (key : String) (s : String) :
    Appends (strFieldEvents emit key s) (strFieldDoc emit key s) := by
  intro acc rest
  cases emit with
  | false => simp [strFieldEvents, strFieldDoc, runEvents, JObj.append_onil]
  | true => simp [strFieldEvents, strFieldDoc, runEvents, stepEvent, putValue]

theorem run_strArrElems (elems : List (Option String)) (acc : JArr) (rest : List Frame) :
    runEvents (elems.map (fun c => EmitEvent.estr (c.getD ""))) ⟨.farr acc :: rest, none⟩ =
      some ⟨.farr (acc.append (strArrOf elems)) :: rest, none⟩ := by
  induction elems generalizing acc with
  | nil => simp [runEvents, strArrOf, JArr.append_anil]
  | cons c tl ih =>
    simp only [List.map_cons, runEvents, stepEvent, putValue]
    rw [ih (acc.append (.acons (.vstr (c.getD "")) .anil)), JArr.append_assoc_arr]
    simp [strArrOf, JArr.append]

theorem appends_arrField (emit : Bool) (key : String) (elems : List (Option String)) :
    Appends (arrFieldEvents emit key elems) (arrFieldDoc emit key elems) := by
  intro acc rest
  cases emit with
  | false => simp [arrFieldEvents, arrFieldDoc, runEvents, JObj.append_onil]
  | true =>
    have hsplit : arrFieldEvents true key elems =
        [EmitEvent.estr key, EmitEvent.arrayOpen] ++
          (elems.map (fun c => EmitEvent.estr (c.getD "")) ++ [EmitEvent.arrayClose]) := by
      simp [arrFieldEvents]
    rw [hsplit, runEvents_append]
    have hk : runEvents [EmitEvent.estr key, EmitEvent.arrayOpen]
        ⟨.fobj acc none :: rest, none⟩ =
        some ⟨.farr .anil :: .fobj acc (some key) :: rest, none⟩ := rfl
    rw [hk]
    show runEvents (elems.map (fun c => EmitEvent.estr (c.getD "")) ++ [EmitEvent.arrayClose])
      ⟨.farr .anil :: .fobj acc (some key) :: rest, none⟩ = _
    rw [runEvents_append, run_strArrElems elems .anil (.fobj acc (some key) :: rest)]
    show runEvents [EmitEvent.arrayClose]
      ⟨.farr (JArr.anil.append (strArrOf elems)) :: .fobj acc (some key) :: rest, none⟩ = _
    rw [show JArr.anil.append (strArrOf elems) = strArrOf elems from rfl, run_arrayClose]
    simp [putValue, arrFieldDoc]

theorem appends_residual {α : Type} (ptr : Option α) (resOf : α → Option JVal) :
    Appends (residualEvents ptr resOf) (residualDoc ptr resOf) := by
  intro acc rest
  cases ptr with
  | none => simp [residualEvents, residualDoc, runEvents, JObj.append_onil]
  | some r =>
    cases hres : resOf r with
    | none => simp [residualEvents, residualDoc, hres, runEvents, JObj.append_onil]
    | some t =>
      cases t with
      | vobj es =>
        simp only [residualEvents, residualDoc, hres, gen_yajl_object_residual]
        exact run_genObjEntries es acc rest
      | vtrue => simp [residualEvents, residualDoc, hres, gen_yajl_object_residual,
          runEvents, JObj.append_onil]
      | vfalse => simp [residualEvents, residualDoc, hres, gen_yajl_object_residual,
          runEvents, JObj.append_onil]
      | vnull => simp [residualEvents, residualDoc, hres, gen_yajl_object_residual,
          runEvents, JObj.append_onil]
      | vnum s => simp [residualEvents, residualDoc, hres, gen_yajl_object_residual,
          runEvents, JObj.append_onil]
      | vstr s => simp [residualEvents, residualDoc, hres, gen_yajl_object_residual,
          runEvents, JObj.append_onil]
      | varr xs => simp [residualEvents, residualDoc, hres, gen_yajl_object_residual,
          runEvents, JObj.append_onil]

theorem buildDoc_openClose (L : List EmitEvent) (D : JObj) (h : Appends L D) :
    buildDoc (.mapOpen :: (L ++ [.mapClose])) = some (.vobj D) := by
  have h3 : runEvents (L ++ [EmitEvent.mapClose]) ⟨[.fobj .onil none], none⟩ =
      some ⟨[], some (.vobj D)⟩ := by
    rw [runEvents_append, h .onil []]
    show runEvents [EmitEvent.mapClose] ⟨[.fobj (JObj.onil.append D) none], none⟩ = _
    rw [show JObj.onil.append D = D from rfl, run_mapClose]
    rfl
  have h4 : runEvents (EmitEvent.mapOpen :: (L ++ [EmitEvent.mapClose])) ⟨[], none⟩ =
      some ⟨[], some (.vobj D)⟩ := h3
  rw [buildDoc, h4]

/-- The document object produced by gen_..._linux_cgroup. -/
def cgroupDoc (ptr : Option runtime_spec_schema_features_linux_cgroup)
    (ctx : parser_context) : JObj :=
  (boolFieldDoc (ctx.opt_gen_key_value || optTest ptr (·.v1_present)) "v1"
      (optTest ptr (·.v1))).append
    ((boolFieldDoc (ctx.opt_gen_key_value || optTest ptr (·.v2_present)) "v2"
        (optTest ptr (·.v2))).append
      ((boolFieldDoc (ctx.opt_gen_key_value || optTest ptr (·.systemd_present)) "systemd"
          (optTest ptr (·.systemd))).append
        ((boolFieldDoc (ctx.opt_gen_key_value || optTest ptr (·.systemd_user_present))
            "systemdUser" (optTest ptr (·.systemd_user))).append
          ((boolFieldDoc (ctx.opt_gen_key_value || optTest ptr (·.rdma_present)) "rdma"
              (optTest ptr (·.rdma))).append
            (residualDoc ptr (·._residual))))))

theorem buildDoc_gen_cgroup (ptr : Option runtime_spec_schema_features_linux_cgroup)
    (ctx : parser_context) :
    buildDoc (gen_runtime_spec_schema_features_linux_cgroup ptr ctx) =
      some (.vobj (cgroupDoc ptr ctx)) := by
  have h :=
    appends_append (appends_boolField (ctx.opt_gen_key_value || optTest ptr (·.v1_present))
        "v1" (optTest ptr (·.v1)))
      (appends_append (appends_boolField (ctx.opt_gen_key_value || optTest ptr (·.v2_present))
          "v2" (optTest ptr (·.v2)))
        (appends_append
          (appends_boolField (ctx.opt_gen_key_value || optTest ptr (·.systemd_present))
            "systemd" (optTest ptr (·.systemd)))
          (appends_append
            (appends_boolField (ctx.opt_gen_key_value || optTest ptr (·.systemd_user_present))
              "systemdUser" (optTest ptr (·.systemd_user)))
            (appends_append
              (appends_boolField (ctx.opt_gen_key_value || optTest ptr (·.rdma_present))
                "rdma" (optTest ptr (·.rdma)))
              (appends_residual ptr (·._residual))))))
  have h2 := buildDoc_openClose _ _ h
  have hshape : gen_runtime_spec_schema_features_linux_cgroup ptr ctx =
      EmitEvent.mapOpen ::
        ((boolFieldEvents (ctx.opt_gen_key_value || optTest ptr (·.v1_present)) "v1"
            (optTest ptr (·.v1)) ++
          (boolFieldEvents (ctx.opt_gen_key_value || optTest ptr (·.v2_present)) "v2"
            (optTest ptr (·.v2)) ++
          (boolFieldEvents (ctx.opt_gen_key_value || optTest ptr (·.systemd_present)) "systemd"
            (optTest ptr (·.systemd)) ++
          (boolFieldEvents (ctx.opt_gen_key_value || optTest ptr (·.systemd_user_present))
            "systemdUser" (optTest ptr (·.systemd_user)) ++
          (boolFieldEvents (ctx.opt_gen_key_value || optTest ptr (·.rdma_present)) "rdma"
            (optTest ptr (·.rdma)) ++
          residualEvents ptr (·._residual)))))) ++ [EmitEvent.mapClose]) := by
    simp [gen_runtime_spec_schema_features_linux_cgroup]
  rw [hshape, cgroupDoc]
  exact h2

/-- The document object produced by gen_..._zos_namespace_reference. -/
def zosDoc (ptr : Option runtime_spec_schema_defs_zos_namespace_reference)
    (ctx : parser_context) : JObj :=
  (strFieldDoc (ctx.opt_gen_key_value || optTest ptr (·.type.isSome)) "type"
      ((ptr.bind (·.type)).getD "")).append
    ((strFieldDoc (ctx.opt_gen_key_value || optTest ptr (·.path.isSome)) "path"
        ((ptr.bind (·.path)).getD "")).append
      (residualDoc ptr (·._residual)))

theorem buildDoc_gen_zos (ptr : Option runtime_spec_schema_defs_zos_namespace_reference)
    (ctx : parser_context) :
    buildDoc (gen_runtime_spec_schema_defs_zos_namespace_reference ptr ctx) =
      some (.vobj (zosDoc ptr ctx)) := by
  have h :=
    appends_append (appends_strField (ctx.opt_gen_key_value || optTest ptr (·.type.isSome))
        "type" ((ptr.bind (·.type)).getD ""))
      (appends_append (appends_strField (ctx.opt_gen_key_value || optTest ptr (·.path.isSome))
          "path" ((ptr.bind (·.path)).getD ""))
        (appends_residual ptr (·._residual)))
  have h2 := buildDoc_openClose _ _ h
  have hshape : gen_runtime_spec_schema_defs_zos_namespace_reference ptr ctx =
      EmitEvent.mapOpen ::
        ((strFieldEvents (ctx.opt_gen_key_value || optTest ptr (·.type.isSome)) "type"
            ((ptr.bind (·.type)).getD "") ++
          (strFieldEvents (ctx.opt_gen_key_value || optTest ptr (·.path.isSome)) "path"
            ((ptr.bind (·.path)).getD "") ++
          residualEvents ptr (·._residual))) ++ [EmitEvent.mapClose]) := by
    simp [gen_runtime_spec_schema_defs_zos_namespace_reference]
  rw [hshape, zosDoc]
  exact h2

/-- The document object produced by gen_..._linux_seccomp. -/
def seccompDoc (ptr : Option runtime_spec_schema_features_linux_seccomp)
    (ctx : parser_context) : JObj :=
  (boolFieldDoc (ctx.opt_gen_key_value || optTest ptr (·.enabled_present)) "enabled"
      (optTest ptr (·.enabled))).append
    ((arrFieldDoc (ctx.opt_gen_key_value || optTest ptr (·.actions.isSome)) "actions"
        ((ptr.bind (·.actions)).getD [])).append
      ((arrFieldDoc (ctx.opt_gen_key_value || optTest ptr (·.operators.isSome)) "operators"
          ((ptr.bind (·.operators)).getD [])).append
        ((arrFieldDoc (ctx.opt_gen_key_value || optTest ptr (·.archs.isSome)) "archs"
            ((ptr.bind (·.archs)).getD [])).append
          ((arrFieldDoc (ctx.opt_gen_key_value || optTest ptr (·.known_flags.isSome))
              "knownFlags" ((ptr.bind (·.known_flags)).getD [])).append
            ((arrFieldDoc (ctx.opt_gen_key_value || optTest ptr (·.supported_flags.isSome))
                "supportedFlags" ((ptr.bind (·.supported_flags)).getD [])).append
              (residualDoc ptr (·._residual)))))))

theorem buildDoc_gen_seccomp (ptr : Option runtime_spec_schema_features_linux_seccomp)
    (ctx : parser_context) :
    buildDoc (gen_runtime_spec_schema_features_linux_seccomp ptr ctx) =
      some (.vobj (seccompDoc ptr ctx)) := by
  have h :=
    appends_append (appends_boolField (ctx.opt_gen_key_value || optTest ptr (·.enabled_present))
        "enabled" (optTest ptr (·.enabled)))
      (appends_append (appends_arrField (ctx.opt_gen_key_value || optTest ptr (·.actions.isSome))
          "actions" ((ptr.bind (·.actions)).getD []))
        (appends_append
          (appends_arrField (ctx.opt_gen_key_value || optTest ptr (·.operators.isSome))
            "operators" ((ptr.bind (·.operators)).getD []))
          (appends_append
            (appends_arrField (ctx.opt_gen_key_value || optTest ptr (·.archs.isSome))
              "archs" ((ptr.bind (·.archs)).getD []))
            (appends_append
              (appends_arrField (ctx.opt_gen_key_value || optTest ptr (·.known_flags.isSome))
                "knownFlags" ((ptr.bind (·.known_flags)).getD []))
              (appends_append
                (appends_arrField
                  (ctx.opt_gen_key_value || optTest ptr (·.supported_flags.isSome))
                  "supportedFlags" ((ptr.bind (·.supported_flags)).getD []))
                (appends_residual ptr (·._residual)))))))
  have h2 := buildDoc_openClose _ _ h
  have hshape : gen_runtime_spec_schema_features_linux_seccomp ptr ctx =
      EmitEvent.mapOpen ::
        ((boolFieldEvents (ctx.opt_gen_key_value || optTest ptr (·.enabled_present)) "enabled"
            (optTest ptr (·.enabled)) ++
          (arrFieldEvents (ctx.opt_gen_key_value || optTest ptr (·.actions.isSome)) "actions"
            ((ptr.bind (·.actions)).getD []) ++
          (arrFieldEvents (ctx.opt_gen_key_value || optTest ptr (·.operators.isSome)) "operators"
            ((ptr.bind (·.operators)).getD []) ++
          (arrFieldEvents (ctx.opt_gen_key_value || optTest ptr (·.archs.isSome)) "archs"
            ((ptr.bind (·.archs)).getD []) ++
          (arrFieldEvents (ctx.opt_gen_key_value || optTest ptr (·.known_flags.isSome))
            "knownFlags" ((ptr.bind (·.known_flags)).getD []) ++
          (arrFieldEvents (ctx.opt_gen_key_value || optTest ptr (·.supported_flags.isSome))
            "supportedFlags" ((ptr.bind (·.supported_flags)).getD []) ++
          residualEvents ptr (·._residual))))))) ++ [EmitEvent.mapClose]) := by
    simp [gen_runtime_spec_schema_features_linux_seccomp]
  rw [hshape, seccompDoc]
  exact h2

/-- Number of keys of an object that match no known wire name (what the
decoder counts in j); blank slots are skipped like everywhere else. -/
def countUnknown (names : List String) : JObj → Nat
  | .onil => 0
  | .ocons k _ tl =>
    if k ∈ names then countUnknown names tl else countUnknown names tl + 1
  | .oblank tl => countUnknown names tl

/-- The slots of an object whose keys match no known wire name, in source
order — the entries the spec calls the residual. -/
def filterUnknown (names : List String) : JObj → JObj
  | .onil => .onil
  | .ocons k v tl =>
    if k ∈ names then filterUnknown names tl else .ocons k v (filterUnknown names tl)
  | .oblank tl => filterUnknown names tl

theorem scanResidual_count (names : List String) (fk : Bool) :
    ∀ es : JObj, (scanResidual names fk es).2.2 = countUnknown names es
  | .onil => rfl
  | .ocons k v tl => by
    have ih := scanResidual_count names fk tl
    by_cases hk : k ∈ names
    · simp [scanResidual, countUnknown, hk, ih]
    · cases fk <;> simp [scanResidual, countUnknown, hk, ih]
  | .oblank tl => by
    have ih := scanResidual_count names fk tl
    simp [scanResidual, countUnknown, ih]

theorem scanResidual_resi_true (names : List String) :
    ∀ es : JObj, (scanResidual names true es).2.1 = filterUnknown names es
  | .onil => rfl
  | .ocons k v tl => by
    have ih := scanResidual_resi_true names tl
    by_cases hk : k ∈ names <;> simp [scanResidual, filterUnknown, hk, ih]
  | .oblank tl => by
    have ih := scanResidual_resi_true names tl
    simp [scanResidual, filterUnknown, ih]

theorem scanResidual_keep_false (names : List String) :
    ∀ es : JObj, (scanResidual names false es).1 = es
  | .onil => rfl
  | .ocons k v tl => by
    have ih := scanResidual_keep_false names tl
    by_cases hk : k ∈ names <;> simp [scanResidual, hk, ih]
  | .oblank tl => by
    have ih := scanResidual_keep_false names tl
    simp [scanResidual, ih]

/-- The tri-state boolean decode block, described through the raw key
lookup: the field is present with value true exactly for a stored
JSON-true, present with value false exactly for a stored JSON-false, and
absent for a missing key or a value of any other kind. -/
theorem boolFieldDecode_obj (es : JObj) (name : String) :
    boolFieldDecode (.vobj es) name =
      match es.olookup name with
      | some .vtrue => (true, true)
      | some .vfalse => (false, true)
      | _ => (false, false) := by
  cases hl : es.olookup name with
  | none => simp [boolFieldDecode, get_val, hl]
  | some v => cases v <;> simp [boolFieldDecode, get_val, hl, JVal.typeOf]

/-- The scalar string decode block, described through the raw key lookup:
the field is a copy of a stored string and NULL (absent) for a missing key
or a value of any other kind. -/
theorem stringFieldDecode_obj (es : JObj) (name : String) :
    stringFieldDecode (.vobj es) name =
      match es.olookup name with
      | some (.vstr s) => some s
      | _ => none := by
  cases hl : es.olookup name with
  | none => simp [stringFieldDecode, get_val, hl]
  | some v => cases v <;> simp [stringFieldDecode, get_val, hl, JVal.typeOf, JVal.getString]

/-- The value is JSON-true or JSON-false. -/
def isBoolVal : JVal → Bool
  | .vtrue => true
  | .vfalse => true
  | _ => false

/-- Every full slot of the object whose key is a known name holds JSON-true
or JSON-false (the shape hypothesis of the round-trip statement). -/
def knownBools (names : List String) : JObj → Bool
  | .onil => true
  | .ocons k v tl => (!(decide (k ∈ names)) || isBoolVal v) && knownBools names tl
  | .oblank tl => knownBools names tl

theorem knownBools_lookup (names : List String) (name : String) (hn : name ∈ names) :
    ∀ es : JObj, knownBools names es = true →
      ∀ v : JVal, es.olookup name = some v → v = .vtrue ∨ v = .vfalse
  | .onil, _, v, hv => by simp [JObj.olookup] at hv
  | .ocons k w tl, h, v, hv => by
    have h2 : (!(decide (k ∈ names)) || isBoolVal w) = true ∧ knownBools names tl = true := by
      rw [knownBools, Bool.and_eq_true] at h
      exact h
    by_cases hk : k = name
    · subst hk
      have hv2 : w = v := by simpa [JObj.olookup] using hv
      subst hv2
      have h3 := h2.1
      rw [decide_eq_true hn, Bool.not_true, Bool.false_or] at h3
      cases w <;> simp [isBoolVal] at h3 <;> simp
    · have hv2 : tl.olookup name = some v := by simpa [JObj.olookup, hk] using hv
      exact knownBools_lookup names name hn tl h2.2 v hv2
  | .oblank tl, h, v, hv => by
    have h2 : knownBools names tl = true := by
      rw [knownBools] at h
      exact h
    have hv2 : tl.olookup name = some v := by simpa [JObj.olookup] using hv
    exact knownBools_lookup names name hn tl h2 v hv2

theorem noBlanksO_filterUnknown (names : List String) :
    ∀ es : JObj, noBlanksO es = true → noBlanksO (filterUnknown names es) = true
  | .onil, _ => rfl
  | .ocons k v tl, h => by
    have h2 : noBlanksV v = true ∧ noBlanksO tl = true := by
      rw [noBlanksO, Bool.and_eq_true] at h
      exact h
    have ih := noBlanksO_filterUnknown names tl h2.2
    by_cases hk : k ∈ names <;> simp [filterUnknown, hk, noBlanksO, h2.1, ih]
  | .oblank tl, h => by simp [noBlanksO] at h

/-- Spec-side description of one known boolean field of the output
document: the field appears, with the source value, exactly when the source
object stores JSON-true or JSON-false under the wire name. -/
def lookBool (es : JObj) (name : String) : JObj :=
  match es.olookup name with
  | some .vtrue => .ocons name .vtrue .onil
  | some .vfalse => .ocons name .vfalse .onil
  | _ => .onil

/-- Spec-side description of the known part of the round-tripped cgroup
document: the recognized fields in schema order, each carrying the value
the source tree stores for it. -/
def specKnownCgroup (es : JObj) : JObj :=
  (lookBool es "v1").append ((lookBool es "v2").append ((lookBool es "systemd").append
    ((lookBool es "systemdUser").append (lookBool es "rdma"))))

theorem boolFieldDoc_decode (es : JObj) (name : String)
    (h : ∀ v, es.olookup name = some v → v = .vtrue ∨ v = .vfalse) :
    boolFieldDoc (boolFieldDecode (.vobj es) name).2 name (boolFieldDecode (.vobj es) name).1 =
      lookBool es name := by
  rw [boolFieldDecode_obj]
  cases hl : es.olookup name with
  | none => simp [boolFieldDoc, lookBool, hl]
  | some v =>
    rcases h v hl with rfl | rfl <;> simp [boolFieldDoc, lookBool, hl]

/-- C1.  The claim as stated is false: a known-named key holding a
non-boolean value is dropped entirely by the decode/encode round trip (it
is neither decoded — the typed get_val lookups miss it — nor moved to the
residual, because the residual scan matches on the key name alone).  At
T = \x7b"v1": "hello", "unknownKey": "x"\x7d with captureUnknown enabled
and alwaysEmitKnownKeys disabled, the decoded record has all fields absent
and residual \x7b"unknownKey": "x"\x7d, and re-encoding yields
\x7b"unknownKey": "x"\x7d, a document with no "v1" entry although T has
one, so the known-field value of T is not preserved. -/
theorem claim_C1_counterexample :
    (make_runtime_spec_schema_features_linux_cgroup
        (some (.vobj (.ocons "v1" (.vstr "hello")
          (.ocons "unknownKey" (.vstr "x") .onil))))
        ⟨true, false, false, false, false⟩).ret =
      some ⟨false, false, false, false, false, false, false, false, false, false,
        some (.vobj (.ocons "unknownKey" (.vstr "x") .onil))⟩ ∧
    buildDoc (gen_runtime_spec_schema_features_linux_cgroup
        (some ⟨false, false, false, false, false, false, false, false, false, false,
          some (.vobj (.ocons "unknownKey" (.vstr "x") .onil))⟩)
        ⟨true, false, false, false, false⟩) =
      some (.vobj (.ocons "unknownKey" (.vstr "x") .onil)) ∧
    (JObj.ocons "v1" (.vstr "hello") (.ocons "unknownKey" (.vstr "x") .onil)).olookup "v1" =
      some (.vstr "hello") ∧
    (JObj.ocons "unknownKey" (.vstr "x") .onil).olookup "v1" = none :=
  ⟨rfl, rfl, rfl, rfl⟩

/-- C1 (amended).  For every source object all of whose known-named keys
hold JSON-true or JSON-false (and with no detached slots), decoding with
captureUnknown (OPT_PARSE_FULLKEY) enabled and re-encoding the resulting
record with alwaysEmitKnownKeys (OPT_GEN_KEY_VALUE) disabled produces the
document whose known fields carry exactly the source values, in schema
order, followed by exactly the unknown entries of the source in their
original relative order. -/
theorem claim_C1_roundtrip (es : JObj) (ctx : parser_context)
    (hnb : noBlanksO es = true)
    (hkb : knownBools cgroupKnownKeys es = true)
    (hf : ctx.opt_parse_fullkey = true)
    (hkv : ctx.opt_gen_key_value = false) :
    ∃ r, (make_runtime_spec_schema_features_linux_cgroup (some (.vobj es)) ctx).ret = some r ∧
      buildDoc (gen_runtime_spec_schema_features_linux_cgroup (some r) ctx) =
        some (.vobj ((specKnownCgroup es).append (filterUnknown cgroupKnownKeys es))) := by
  have hret : (make_runtime_spec_schema_features_linux_cgroup (some (.vobj es)) ctx).ret =
      some ⟨(boolFieldDecode (.vobj es) "v1").1, (boolFieldDecode (.vobj es) "v1").2,
        (boolFieldDecode (.vobj es) "v2").1, (boolFieldDecode (.vobj es) "v2").2,
        (boolFieldDecode (.vobj es) "systemd").1, (boolFieldDecode (.vobj es) "systemd").2,
        (boolFieldDecode (.vobj es) "systemdUser").1, (boolFieldDecode (.vobj es) "systemdUser").2,
        (boolFieldDecode (.vobj es) "rdma").1, (boolFieldDecode (.vobj es) "rdma").2,
        some (.vobj (filterUnknown cgroupKnownKeys es))⟩ := by
    simp [make_runtime_spec_schema_features_linux_cgroup, hf, scanResidual_resi_true]
  refine ⟨_, hret, ?_⟩
  rw [buildDoc_gen_cgroup]
  have hd1 := boolFieldDoc_decode es "v1"
    (knownBools_lookup cgroupKnownKeys "v1" (by decide) es hkb)
  have hd2 := boolFieldDoc_decode es "v2"
    (knownBools_lookup cgroupKnownKeys "v2" (by decide) es hkb)
  have hd3 := boolFieldDoc_decode es "systemd"
    (knownBools_lookup cgroupKnownKeys "systemd" (by decide) es hkb)
  have hd4 := boolFieldDoc_decode es "systemdUser"
    (knownBools_lookup cgroupKnownKeys "systemdUser" (by decide) es hkb)
  have hd5 := boolFieldDoc_decode es "rdma"
    (knownBools_lookup cgroupKnownKeys "rdma" (by decide) es hkb)
  have hres : normObj (filterUnknown cgroupKnownKeys es) = filterUnknown cgroupKnownKeys es :=
    normObj_of_noBlanks _ (noBlanksO_filterUnknown cgroupKnownKeys es hnb)
  simp only [cgroupDoc, optTest, hkv, Bool.false_or, residualDoc]
  rw [hd1, hd2, hd3, hd4, hd5, hres]
  simp [specKnownCgroup, JObj.append_assoc_obj]

/-- C1 witness: the example scenario of the claim, decode
\x7b"v1": true, "unknownKey": "x"\x7d with captureUnknown enabled and
re-encode with alwaysEmitKnownKeys disabled. -/
theorem claim_C1_witness :
    ∃ r, (make_runtime_spec_schema_features_linux_cgroup
        (some (.vobj (.ocons "v1" .vtrue (.ocons "unknownKey" (.vstr "x") .onil))))
        ⟨true, false, false, false, false⟩).ret = some r ∧
      buildDoc (gen_runtime_spec_schema_features_linux_cgroup (some r)
          ⟨true, false, false, false, false⟩) =
        some (.vobj ((specKnownCgroup
            (.ocons "v1" .vtrue (.ocons "unknownKey" (.vstr "x") .onil))).append
          (filterUnknown cgroupKnownKeys
            (.ocons "v1" .vtrue (.ocons "unknownKey" (.vstr "x") .onil))))) :=
  claim_C1_roundtrip (.ocons "v1" .vtrue (.ocons "unknownKey" (.vstr "x") .onil))
    ⟨true, false, false, false, false⟩ (by decide) (by decide) rfl rfl

theorem cloneStringArray_id (src : Option (List (Option String))) :
    cloneStringArray src = src := by
  cases src <;> rfl

/-- C2.  The claim as stated is false: clone does not copy the residual
tree.  clone_runtime_spec_schema_features_linux_cgroup copies only the ten
scalar cells and never writes _residual, so the clone of a record whose
residual tree is present has an absent residual, not an equal one. -/
theorem claim_C2_counterexample :
    (clone_runtime_spec_schema_features_linux_cgroup
      ⟨false, false, false, false, false, false, false, false, false, false,
        some (.vobj .onil)⟩)._residual = none ∧
    (⟨false, false, false, false, false, false, false, false, false, false,
        some (.vobj .onil)⟩ :
      runtime_spec_schema_features_linux_cgroup)._residual ≠ none :=
  ⟨rfl, by simp⟩

/-- C2 (amended).  clone deep-copies every owned string, string array and
scalar field of the record — the clone is value-equal to the source on all
of them, and being a fresh structural copy it shares no ownership with the
source — but the residual tree is never cloned: the clone of any record has
an absent residual. -/
theorem claim_C2_clone (c : runtime_spec_schema_features_linux_cgroup)
    (s : runtime_spec_schema_features_linux_seccomp)
    (z : runtime_spec_schema_defs_zos_namespace_reference) :
    clone_runtime_spec_schema_features_linux_cgroup c = { c with _residual := none } ∧
    clone_runtime_spec_schema_features_linux_seccomp s = { s with _residual := none } ∧
    clone_runtime_spec_schema_defs_zos_namespace_reference z = { z with _residual := none } := by
  refine ⟨rfl, ?_, rfl⟩
  simp [clone_runtime_spec_schema_features_linux_seccomp, cloneStringArray_id]

/-- C3.  The claim as stated is false: decoding an absent (NULL) tree
against the zos namespace-reference schema, whose field "type" is required,
does not return a MissingRequiredField error.  The generated make function
returns NULL before the required-field check whenever tree is NULL, with
the error out-parameter left NULL. -/
theorem claim_C3_counterexample :
    (make_runtime_spec_schema_defs_zos_namespace_reference none
        ⟨false, false, false, false, false⟩).err = none ∧
    (make_runtime_spec_schema_defs_zos_namespace_reference none
        ⟨false, false, false, false, false⟩).ret = none :=
  ⟨rfl, rfl⟩

/-- C3 (amended).  For every configuration, decoding an absent tree returns
no record and no error — success with an absent record — for both a type
with no required fields (cgroup) and a type with a required field (zos
namespace-reference); the required-field check fires only for a present
tree, as decoding the present empty object against the zos schema shows. -/
theorem claim_C3_absent_tree (ctx : parser_context) :
    make_runtime_spec_schema_features_linux_cgroup none ctx = ⟨none, none, none, false⟩ ∧
    make_runtime_spec_schema_defs_zos_namespace_reference none ctx = ⟨none, none, none, false⟩ ∧
    (make_runtime_spec_schema_defs_zos_namespace_reference (some (.vobj .onil)) ctx).err =
      some zosRequiredTypeMsg :=
  ⟨rfl, rfl, rfl⟩

/-- C3 witness: the amended behavior at one concrete configuration. -/
theorem claim_C3_witness :
    make_runtime_spec_schema_features_linux_cgroup none ⟨true, true, false, false, true⟩ =
      ⟨none, none, none, false⟩ :=
  (claim_C3_absent_tree ⟨true, true, false, false, true⟩).1

/-- C4.  For the boolean field v1 of the cgroup type: decoding an object
with no "v1" key leaves the field absent; a stored JSON-false decodes to
present-and-false; a stored JSON-true decodes to present-and-true; and
clone preserves both the value and the presence bit, so the three states
stay distinguishable after decode and after clone. -/
theorem claim_C4_tristate (es : JObj) (ctx : parser_context) :
    (es.olookup "v1" = none →
      (make_runtime_spec_schema_features_linux_cgroup (some (.vobj es)) ctx).ret.map
        (fun r => (r.v1_present, r.v1)) = some (false, false)) ∧
    (es.olookup "v1" = some .vfalse →
      (make_runtime_spec_schema_features_linux_cgroup (some (.vobj es)) ctx).ret.map
        (fun r => (r.v1_present, r.v1)) = some (true, false)) ∧
    (es.olookup "v1" = some .vtrue →
      (make_runtime_spec_schema_features_linux_cgroup (some (.vobj es)) ctx).ret.map
        (fun r => (r.v1_present, r.v1)) = some (true, true)) ∧
    (∀ r, (clone_runtime_spec_schema_features_linux_cgroup r).v1_present = r.v1_present ∧
      (clone_runtime_spec_schema_features_linux_cgroup r).v1 = r.v1) := by
  refine ⟨?_, ?_, ?_, fun r => ⟨rfl, rfl⟩⟩ <;> intro hl <;>
    simp [make_runtime_spec_schema_features_linux_cgroup, boolFieldDecode_obj, hl]

/-- C4 witness: the three lookup shapes at concrete inputs, and clone
preservation on the decoded present-false record. -/
theorem claim_C4_witness :
    (make_runtime_spec_schema_features_linux_cgroup (some (.vobj .onil))
        ⟨false, false, false, false, false⟩).ret.map (fun r => (r.v1_present, r.v1)) =
      some (false, false) ∧
    (make_runtime_spec_schema_features_linux_cgroup
        (some (.vobj (.ocons "v1" .vfalse .onil)))
        ⟨false, false, false, false, false⟩).ret.map (fun r => (r.v1_present, r.v1)) =
      some (true, false) ∧
    (make_runtime_spec_schema_features_linux_cgroup
        (some (.vobj (.ocons "v1" .vtrue .onil)))
        ⟨false, false, false, false, false⟩).ret.map (fun r => (r.v1_present, r.v1)) =
      some (true, true) ∧
    (clone_runtime_spec_schema_features_linux_cgroup
        ⟨false, true, false, false, false, false, false, false, false, false, none⟩).v1_present =
      true :=
  ⟨(claim_C4_tristate .onil ⟨false, false, false, false, false⟩).1 rfl,
    (claim_C4_tristate (.ocons "v1" .vfalse .onil) ⟨false, false, false, false, false⟩).2.1 rfl,
    (claim_C4_tristate (.ocons "v1" .vtrue .onil) ⟨false, false, false, false, false⟩).2.2.1 rfl,
    ((claim_C4_tristate .onil ⟨false, false, false, false, false⟩).2.2.2
      ⟨false, true, false, false, false, false, false, false, false, false, none⟩).1⟩

/-- Spec-side description of a decoded scalar string field: the stored
string content when the key holds a string, absent otherwise. -/
def specString (es : JObj) (name : String) : Option String :=
  match es.olookup name with
  | some (.vstr s) => some s
  | _ => none

theorem stringFieldDecode_spec (es : JObj) (name : String) :
    stringFieldDecode (.vobj es) name = specString es name := by
  rw [stringFieldDecode_obj]
  rfl

/-- C5.  The claim as stated is false: a key present with a non-string
value does not decode to the empty string.  The typed get_val lookup with
yajl_t_string misses a non-string value, so the field stays NULL (absent):
decoding \x7b"type": "a", "path": true\x7d leaves path absent, not "". -/
theorem claim_C5_counterexample :
    (make_runtime_spec_schema_defs_zos_namespace_reference
        (some (.vobj (.ocons "type" (.vstr "a") (.ocons "path" .vtrue .onil))))
        ⟨false, false, false, false, false⟩).ret =
      some ⟨some "a", none, none⟩ ∧
    (none : Option String) ≠ some "" :=
  ⟨rfl, by simp⟩

/-- C5 (amended).  For the scalar string fields of the zos
namespace-reference type: a key present with a string value decodes to a
copy of that string content; a key absent or present with a non-string
value decodes to an absent field (for the required "type" field a
non-string value therefore triggers the required-field error, so the
statement is conditioned on "type" holding a string). -/
theorem claim_C5_strings (es : JObj) (ctx : parser_context) (t : String)
    (htype : es.olookup "type" = some (.vstr t)) :
    ∃ r, (make_runtime_spec_schema_defs_zos_namespace_reference (some (.vobj es)) ctx).ret =
        some r ∧
      r.type = some t ∧ r.path = specString es "path" := by
  have hty : stringFieldDecode (.vobj es) "type" = some t := by
    rw [stringFieldDecode_spec, specString, htype]
  cases hes : es.olookup "path" <;>
    simp [make_runtime_spec_schema_defs_zos_namespace_reference, hty,
      stringFieldDecode_spec]

/-- C5 witness: decoding \x7b"type": "a", "path": 7\x7d — the string field
type is copied and the numeric path degrades to absent. -/
theorem claim_C5_witness :
    ∃ r, (make_runtime_spec_schema_defs_zos_namespace_reference
        (some (.vobj (.ocons "type" (.vstr "a") (.ocons "path" (.vnum "7") .onil))))
        ⟨false, false, false, false, false⟩).ret = some r ∧
      r.type = some "a" ∧
      r.path = specString (.ocons "type" (.vstr "a") (.ocons "path" (.vnum "7") .onil)) "path" :=
  claim_C5_strings (.ocons "type" (.vstr "a") (.ocons "path" (.vnum "7") .onil))
    ⟨false, false, false, false, false⟩ "a" rfl

/-- C6.  Decoding the empty object against the zos namespace-reference
schema, whose field "type" is required, returns no record and the error
message naming the field "type" (the asprintf text Required field
(quote)type(quote) not present), for every configuration. -/
theorem claim_C6_missing_required (ctx : parser_context) :
    (make_runtime_spec_schema_defs_zos_namespace_reference (some (.vobj .onil)) ctx).ret =
      none ∧
    (make_runtime_spec_schema_defs_zos_namespace_reference (some (.vobj .onil)) ctx).err =
      some zosRequiredTypeMsg :=
  ⟨rfl, rfl⟩

/-- The tree value of a C boolean. -/
def boolv (b : Bool) : JVal := if b then .vtrue else .vfalse

/-- The slots contributed by a stored residual tree to the emitted
document: its entries (normalized) for a present object, nothing
otherwise. -/
def resSlots (res : Option JVal) : JObj :=
  match res with
  | some (.vobj es) => normObj es
  | _ => .onil

theorem residualDoc_some {α : Type} (r : α) (f : α → Option JVal) :
    residualDoc (some r) f = resSlots (f r) := by
  cases hres : f r with
  | none => simp [residualDoc, resSlots, hres]
  | some t => cases t <;> simp [residualDoc, resSlots, hres]

/-- C7.  The claim as stated is false: with OPT_GEN_KEY_VALUE set an absent
tri-state boolean is emitted with its stored value bit, not with the
zero-value default false.  The generated emit block tests only the presence
bit to decide emission and then writes b = (ptr && ptr->v1); for the record
with v1 = true but v1_present = false the emitted document carries
"v1": true although the field is absent. -/
theorem claim_C7_counterexample :
    buildDoc (gen_runtime_spec_schema_features_linux_cgroup
        (some ⟨true, false, false, false, false, false, false, false, false, false, none⟩)
        ⟨false, false, true, false, false⟩) =
      some (.vobj (.ocons "v1" .vtrue (.ocons "v2" .vfalse (.ocons "systemd" .vfalse
        (.ocons "systemdUser" .vfalse (.ocons "rdma" .vfalse .onil)))))) ∧
    (⟨true, false, false, false, false, false, false, false, false, false, none⟩ :
      runtime_spec_schema_features_linux_cgroup).v1_present = false :=
  ⟨rfl, rfl⟩

/-- C7 (amended).  With alwaysEmitKnownKeys (OPT_GEN_KEY_VALUE) set, every
known field is emitted: a tri-state boolean carries its stored value bit
(false for every record the decoder or cloner produces with the field
absent, but the stored bit in general), an absent string carries the empty
string, and an absent string array carries the empty array; with the option
unset, a field is emitted exactly when it is present in the record
(presence bit for booleans, non-NULL pointer for strings and arrays). -/
theorem claim_C7_emission (r : runtime_spec_schema_features_linux_cgroup)
    (z : runtime_spec_schema_defs_zos_namespace_reference)
    (s : runtime_spec_schema_features_linux_seccomp) (ctx : parser_context) :
    (ctx.opt_gen_key_value = true →
      buildDoc (gen_runtime_spec_schema_features_linux_cgroup (some r) ctx) =
        some (.vobj (.ocons "v1" (boolv r.v1) (.ocons "v2" (boolv r.v2)
          (.ocons "systemd" (boolv r.systemd) (.ocons "systemdUser" (boolv r.systemd_user)
            (.ocons "rdma" (boolv r.rdma) (resSlots r._residual))))))) ∧
      buildDoc (gen_runtime_spec_schema_defs_zos_namespace_reference (some z) ctx) =
        some (.vobj (.ocons "type" (.vstr (z.type.getD ""))
          (.ocons "path" (.vstr (z.path.getD "")) (resSlots z._residual)))) ∧
      buildDoc (gen_runtime_spec_schema_features_linux_seccomp (some s) ctx) =
        some (.vobj (.ocons "enabled" (boolv s.enabled)
          (.ocons "actions" (.varr (strArrOf (s.actions.getD [])))
            (.ocons "operators" (.varr (strArrOf (s.operators.getD [])))
              (.ocons "archs" (.varr (strArrOf (s.archs.getD [])))
                (.ocons "knownFlags" (.varr (strArrOf (s.known_flags.getD [])))
                  (.ocons "supportedFlags" (.varr (strArrOf (s.supported_flags.getD [])))
                    (resSlots s._residual))))))))) ∧
    (ctx.opt_gen_key_value = false →
      buildDoc (gen_runtime_spec_schema_features_linux_cgroup (some r) ctx) =
        some (.vobj ((if r.v1_present then JObj.ocons "v1" (boolv r.v1) .onil else .onil).append
          ((if r.v2_present then JObj.ocons "v2" (boolv r.v2) .onil else .onil).append
            ((if r.systemd_present then JObj.ocons "systemd" (boolv r.systemd) .onil
                else .onil).append
              ((if r.systemd_user_present then
                  JObj.ocons "systemdUser" (boolv r.systemd_user) .onil else .onil).append
                ((if r.rdma_present then JObj.ocons "rdma" (boolv r.rdma) .onil
                    else .onil).append
                  (resSlots r._residual))))))) ∧
      buildDoc (gen_runtime_spec_schema_defs_zos_namespace_reference (some z) ctx) =
        some (.vobj ((if z.type.isSome then JObj.ocons "type" (.vstr (z.type.getD "")) .onil
            else .onil).append
          ((if z.path.isSome then JObj.ocons "path" (.vstr (z.path.getD "")) .onil
              else .onil).append
            (resSlots z._residual)))) ∧
      buildDoc (gen_runtime_spec_schema_features_linux_seccomp (some s) ctx) =
        some (.vobj ((if s.enabled_present then JObj.ocons "enabled" (boolv s.enabled) .onil
            else .onil).append
          ((if s.actions.isSome then
              JObj.ocons "actions" (.varr (strArrOf (s.actions.getD []))) .onil
            else .onil).append
            ((if s.operators.isSome then
                JObj.ocons "operators" (.varr (strArrOf (s.operators.getD []))) .onil
              else .onil).append
              ((if s.archs.isSome then
                  JObj.ocons "archs" (.varr (strArrOf (s.archs.getD []))) .onil
                else .onil).append
                ((if s.known_flags.isSome then
                    JObj.ocons "knownFlags" (.varr (strArrOf (s.known_flags.getD []))) .onil
                  else .onil).append
                  ((if s.supported_flags.isSome then
                      JObj.ocons "supportedFlags"
                        (.varr (strArrOf (s.supported_flags.getD []))) .onil
                    else .onil).append
                    (resSlots s._residual))))))))) := by
  constructor
  · intro hkv
    refine ⟨?_, ?_, ?_⟩
    · rw [buildDoc_gen_cgroup]
      simp [cgroupDoc, optTest, hkv, boolFieldDoc, boolv, residualDoc_some, JObj.append]
    · rw [buildDoc_gen_zos]
      simp [zosDoc, optTest, hkv, strFieldDoc, residualDoc_some, JObj.append]
    · rw [buildDoc_gen_seccomp]
      simp [seccompDoc, optTest, hkv, boolFieldDoc, arrFieldDoc, boolv, residualDoc_some,
        JObj.append]
  · intro hkv
    refine ⟨?_, ?_, ?_⟩
    · rw [buildDoc_gen_cgroup]
      simp [cgroupDoc, optTest, hkv, Bool.false_or, boolFieldDoc, boolv, residualDoc_some]
    · rw [buildDoc_gen_zos]
      simp [zosDoc, optTest, hkv, Bool.false_or, strFieldDoc, residualDoc_some]
    · rw [buildDoc_gen_seccomp]
      simp [seccompDoc, optTest, hkv, Bool.false_or, boolFieldDoc, arrFieldDoc, boolv,
        residualDoc_some]

/-- C7 witness: the amended statement at concrete records, once with
OPT_GEN_KEY_VALUE set (an absent rdma emits false, an absent path emits "",
an absent actions array emits an empty array) and once with it unset (only
the present string and the present array are emitted; absent arrays and the
absent enabled boolean are omitted). -/
theorem claim_C7_witness :
    buildDoc (gen_runtime_spec_schema_features_linux_cgroup
        (some ⟨true, true, false, false, false, false, false, false, false, false, none⟩)
        ⟨false, false, true, false, false⟩) =
      some (.vobj (.ocons "v1" (boolv true) (.ocons "v2" (boolv false)
        (.ocons "systemd" (boolv false) (.ocons "systemdUser" (boolv false)
          (.ocons "rdma" (boolv false) (resSlots none))))))) ∧
    buildDoc (gen_runtime_spec_schema_defs_zos_namespace_reference
        (some ⟨some "pid", none, none⟩) ⟨false, false, true, false, false⟩) =
      some (.vobj (.ocons "type" (.vstr ((some "pid").getD ""))
        (.ocons "path" (.vstr ((none : Option String).getD "")) (resSlots none)))) ∧
    buildDoc (gen_runtime_spec_schema_defs_zos_namespace_reference
        (some ⟨some "pid", none, none⟩) ⟨false, false, false, false, false⟩) =
      some (.vobj ((if (some "pid").isSome then
          JObj.ocons "type" (.vstr ((some "pid").getD "")) .onil else .onil).append
        ((if (none : Option String).isSome then
            JObj.ocons "path" (.vstr ((none : Option String).getD "")) .onil
          else .onil).append (resSlots none)))) ∧
    buildDoc (gen_runtime_spec_schema_features_linux_seccomp
        (some ⟨false, false, some [some "SCMP_ACT_ALLOW"], none, none, none, none, none⟩)
        ⟨false, false, false, false, false⟩) =
      some (.vobj (.ocons "actions" (.varr (.acons (.vstr "SCMP_ACT_ALLOW") .anil)) .onil)) :=
  ⟨((claim_C7_emission
      ⟨true, true, false, false, false, false, false, false, false, false, none⟩
      ⟨some "pid", none, none⟩
      ⟨false, false, none, none, none, none, none, none⟩
      ⟨false, false, true, false, false⟩).1 rfl).1,
    ((claim_C7_emission
      ⟨true, true, false, false, false, false, false, false, false, false, none⟩
      ⟨some "pid", none, none⟩
      ⟨false, false, none, none, none, none, none, none⟩
      ⟨false, false, true, false, false⟩).1 rfl).2.1,
    ((claim_C7_emission
      ⟨true, true, false, false, false, false, false, false, false, false, none⟩
      ⟨some "pid", none, none⟩
      ⟨false, false, none, none, none, none, none, none⟩
      ⟨false, false, false, false, false⟩).2 rfl).2.1,
    ((claim_C7_emission
      ⟨true, true, false, false, false, false, false, false, false, false, none⟩
      ⟨some "pid", none, none⟩
      ⟨false, false, some [some "SCMP_ACT_ALLOW"], none, none, none, none, none⟩
      ⟨false, false, false, false, false⟩).2 rfl).2.2⟩

/-- C8.  The decode result — returned record, error, and left-behind tree —
is the same whatever the value of OPT_PARSE_STRICT (and of errfile): only
OPT_PARSE_FULLKEY can influence it.  Enabling strict mode only controls the
warning line, which is written exactly when strict is set, at least one
unknown key was found, and an errfile sink was supplied. -/
theorem claim_C8_strict_equiv (t : Option JVal) (c1 c2 : parser_context)
    (hfk : c1.opt_parse_fullkey = c2.opt_parse_fullkey) :
    ((make_runtime_spec_schema_features_linux_cgroup t c1).ret =
        (make_runtime_spec_schema_features_linux_cgroup t c2).ret ∧
      (make_runtime_spec_schema_features_linux_cgroup t c1).err =
        (make_runtime_spec_schema_features_linux_cgroup t c2).err ∧
      (make_runtime_spec_schema_features_linux_cgroup t c1).tree =
        (make_runtime_spec_schema_features_linux_cgroup t c2).tree) ∧
    ((make_runtime_spec_schema_defs_zos_namespace_reference t c1).ret =
        (make_runtime_spec_schema_defs_zos_namespace_reference t c2).ret ∧
      (make_runtime_spec_schema_defs_zos_namespace_reference t c1).err =
        (make_runtime_spec_schema_defs_zos_namespace_reference t c2).err ∧
      (make_runtime_spec_schema_defs_zos_namespace_reference t c1).tree =
        (make_runtime_spec_schema_defs_zos_namespace_reference t c2).tree) ∧
    (∀ es, (make_runtime_spec_schema_features_linux_cgroup (some (.vobj es)) c1).warned =
      (c1.opt_parse_strict && decide (0 < countUnknown cgroupKnownKeys es) &&
        c1.errfile)) := by
  refine ⟨?_, ?_, ?_⟩
  · cases t with
    | none => exact ⟨rfl, rfl, rfl⟩
    | some v =>
      cases v <;> refine ⟨?_, ?_, ?_⟩ <;>
        simp [make_runtime_spec_schema_features_linux_cgroup, hfk]
  · cases t with
    | none => exact ⟨rfl, rfl, rfl⟩
    | some v =>
      cases v with
      | vobj es =>
        cases hty : stringFieldDecode (.vobj es) "type" <;> refine ⟨?_, ?_, ?_⟩ <;>
          simp [make_runtime_spec_schema_defs_zos_namespace_reference, hty, hfk]
      | vtrue => exact ⟨rfl, rfl, rfl⟩
      | vfalse => exact ⟨rfl, rfl, rfl⟩
      | vnull => exact ⟨rfl, rfl, rfl⟩
      | vnum s => exact ⟨rfl, rfl, rfl⟩
      | vstr s => exact ⟨rfl, rfl, rfl⟩
      | varr xs => exact ⟨rfl, rfl, rfl⟩
  · intro es
    simp [make_runtime_spec_schema_features_linux_cgroup, scanResidual_count]

/-- C8 witness: a strict-on run and a strict-off run on the same input
agree on the returned record; the strict-on run with an unknown key and a
supplied sink warns. -/
theorem claim_C8_witness :
    (make_runtime_spec_schema_features_linux_cgroup
        (some (.vobj (.ocons "mystery" .vnull .onil))) ⟨false, true, false, false, true⟩).ret =
      (make_runtime_spec_schema_features_linux_cgroup
        (some (.vobj (.ocons "mystery" .vnull .onil))) ⟨false, false, false, false, true⟩).ret ∧
    (make_runtime_spec_schema_features_linux_cgroup
        (some (.vobj (.ocons "mystery" .vnull .onil))) ⟨false, true, false, false, true⟩).warned =
      (true && decide (0 < countUnknown cgroupKnownKeys (.ocons "mystery" .vnull .onil)) &&
        true) :=
  ⟨(claim_C8_strict_equiv (some (.vobj (.ocons "mystery" .vnull .onil)))
      ⟨false, true, false, false, true⟩ ⟨false, false, false, false, true⟩ rfl).1.1,
    (claim_C8_strict_equiv (some (.vobj (.ocons "mystery" .vnull .onil)))
      ⟨false, true, false, false, true⟩ ⟨false, false, false, false, true⟩ rfl).2.2
      (.ocons "mystery" .vnull .onil)⟩

theorem arrayFreeCells_shape (a : Option (List (Option String))) :
    ∀ x ∈ arrayFreeCells a, (∃ s, x = FreedCell.cellStr s) ∨ x = FreedCell.cellArray := by
  cases a with
  | none =>
    intro x hx
    simp [arrayFreeCells] at hx
  | some xs =>
    intro x hx
    rw [arrayFreeCells, List.mem_append] at hx
    rcases hx with hx | hx
    · rw [List.mem_filterMap] at hx
      rcases hx with ⟨c, _, hc⟩
      cases c with
      | none => simp at hc
      | some s =>
        left
        exact ⟨s, by simpa using hc.symm⟩
    · right
      simpa using hx

/-- C9.  release is a no-op on an absent (NULL) record, so releasing a
record whose pointer was zeroed or moved out frees nothing — a second
release after the first cannot double-free; and on a present seccomp record
the free sequence visits the string arrays cell by cell first and frees the
residual tree and the record itself exactly once each, at the very end. -/
theorem claim_C9_release :
    free_runtime_spec_schema_features_linux_cgroup none = [] ∧
    free_runtime_spec_schema_features_linux_seccomp none = [] ∧
    (∀ r, free_runtime_spec_schema_features_linux_cgroup (some r) ++
        free_runtime_spec_schema_features_linux_cgroup none =
      free_runtime_spec_schema_features_linux_cgroup (some r)) ∧
    (∀ s, free_runtime_spec_schema_features_linux_seccomp (some s) ++
        free_runtime_spec_schema_features_linux_seccomp none =
      free_runtime_spec_schema_features_linux_seccomp (some s)) ∧
    (∀ s : runtime_spec_schema_features_linux_seccomp, ∃ pre,
      free_runtime_spec_schema_features_linux_seccomp (some s) =
        pre ++ (treeFreeCells s._residual ++ [FreedCell.cellRecord]) ∧
      (∀ t, FreedCell.cellTree t ∉ pre) ∧ FreedCell.cellRecord ∉ pre) := by
  refine ⟨rfl, rfl,
    fun r => by simp [free_runtime_spec_schema_features_linux_cgroup],
    fun s => by simp [free_runtime_spec_schema_features_linux_seccomp],
    fun s => ?_⟩
  refine ⟨arrayFreeCells s.actions ++ arrayFreeCells s.operators ++ arrayFreeCells s.archs ++
    arrayFreeCells s.known_flags ++ arrayFreeCells s.supported_flags, ?_, ?_, ?_⟩
  · simp [free_runtime_spec_schema_features_linux_seccomp, List.append_assoc]
  · intro t ht
    simp only [List.mem_append] at ht
    rcases ht with ((((h | h) | h) | h) | h) <;>
      rcases arrayFreeCells_shape _ _ h with ⟨s', hs⟩ | hs <;> simp at hs
  · intro ht
    simp only [List.mem_append] at ht
    rcases ht with ((((h | h) | h) | h) | h) <;>
      rcases arrayFreeCells_shape _ _ h with ⟨s', hs⟩ | hs <;> simp at hs

/-- C10.  When OPT_PARSE_FULLKEY (unknown-key capture) is disabled, decode
leaves the input tree exactly as it was — no slot is detached or nulled —
whatever the strict flag, the sink, and the number of unknown keys. -/
theorem claim_C10_frame (t : Option JVal) (ctx : parser_context)
    (hfk : ctx.opt_parse_fullkey = false) :
    (make_runtime_spec_schema_features_linux_cgroup t ctx).tree = t ∧
    (make_runtime_spec_schema_defs_zos_namespace_reference t ctx).tree = t := by
  constructor
  · cases t with
    | none => rfl
    | some v =>
      cases v <;> simp [make_runtime_spec_schema_features_linux_cgroup, hfk,
        scanResidual_keep_false]
  · cases t with
    | none => rfl
    | some v =>
      cases v with
      | vobj es =>
        cases hty : stringFieldDecode (.vobj es) "type" <;>
          simp [make_runtime_spec_schema_defs_zos_namespace_reference, hty, hfk,
            scanResidual_keep_false]
      | vtrue => rfl
      | vfalse => rfl
      | vnull => rfl
      | vnum s => rfl
      | vstr s => rfl
      | varr xs => rfl

/-- C10 witness: decoding an object with two unknown keys under strict mode
with a sink but capture disabled leaves the tree untouched. -/
theorem claim_C10_witness :
    (make_runtime_spec_schema_features_linux_cgroup
        (some (.vobj (.ocons "zap" .vnull (.ocons "pow" (.vnum "3") .onil))))
        ⟨false, true, false, false, true⟩).tree =
      some (.vobj (.ocons "zap" .vnull (.ocons "pow" (.vnum "3") .onil))) ∧
    (make_runtime_spec_schema_defs_zos_namespace_reference
        (some (.vobj (.ocons "zap" .vnull (.ocons "pow" (.vnum "3") .onil))))
        ⟨false, true, false, false, true⟩).tree =
      some (.vobj (.ocons "zap" .vnull (.ocons "pow" (.vnum "3") .onil))) :=
  claim_C10_frame (some (.vobj (.ocons "zap" .vnull (.ocons "pow" (.vnum "3") .onil))))
    ⟨false, true, false, false, true⟩ rfl

/-- C2 witness: the amended clone behavior at a concrete record with a
present residual. -/
theorem claim_C2_witness :
    clone_runtime_spec_schema_features_linux_cgroup
        ⟨true, true, false, false, false, false, false, false, false, false,
          some (.vobj .onil)⟩ =
      { (⟨true, true, false, false, false, false, false, false, false, false,
          some (.vobj .onil)⟩ :
        runtime_spec_schema_features_linux_cgroup) with _residual := none } :=
  (claim_C2_clone
    ⟨true, true, false, false, false, false, false, false, false, false, some (.vobj .onil)⟩
    ⟨false, false, none, none, none, none, none, none⟩ ⟨none, none, none⟩).1

/-- C6 witness: the required-field error at one concrete configuration. -/
theorem claim_C6_witness :
    (make_runtime_spec_schema_defs_zos_namespace_reference (some (.vobj .onil))
        ⟨true, true, false, false, true⟩).err = some zosRequiredTypeMsg :=
  (claim_C6_missing_required ⟨true, true, false, false, true⟩).2

/-- C9 witness: releasing absent (zeroed / moved-out) records frees
nothing. -/
theorem claim_C9_witness :
    free_runtime_spec_schema_features_linux_cgroup none = [] ∧
    free_runtime_spec_schema_features_linux_seccomp none = [] :=
  ⟨claim_C9_release.1, claim_C9_release.2.1⟩
